import Mathlib

/-!
Shallow embedding of the data-refresh-and-merge pipeline of `src/main.py`
(daily_report_json).

JSON objects are modelled as association lists with Python dict update
semantics (`alSet` replaces an existing key in place, else appends, which
is exactly `d[k] = v` and `d | {k: v}` on insertion-ordered dicts).
Numeric-as-string rate values are modelled directly as rationals, so the
`float(...)` parse in `process_currency_history` is the identity.
External network adapters are parameters: the outcome of a live fetch is
passed in as `Option Payload`, `none` standing for the `except` path of
the corresponding `get_*` function.
-/

namespace DailyReport

/-- A scalar value stored inside a category payload: either a string field
or a `{"buy": ..., "sale": ...}` rate record (numeric values as rationals). -/
inductive Val where
  | s : String → Val
  | rate : ℚ → ℚ → Val
deriving Repr, DecidableEq

/-- One category payload: a JSON object, modelled as an association list. -/
abbrev Payload := List (String × Val)

/-- One sample of the currency history: `{"t": ..., "buy": ..., "sale": ...}`
(built at src/main.py lines 280-284). -/
structure CurrencyEntry where
  t : String
  buy : ℚ
  sale : ℚ
deriving Repr, DecidableEq

/-- A top-level value of the persisted store document `weather_data.json`:
a category payload, the `currency_history` mapping, or the
`last_history_update` date string. -/
inductive StoreVal where
  | payload : Payload → StoreVal
  | hist : List (String × List CurrencyEntry) → StoreVal
  | date : String → StoreVal
deriving Repr, DecidableEq

/-- The persisted JSON document (the whole of `weather_data.json`). -/
abbrev Store := List (String × StoreVal)

/-- Python `d.get(k)` (also the `k in d` test, via `isSome`). -/
def alGet {α : Type} : List (String × α) → String → Option α
  | [], _ => none
  | (k', v) :: rest, k => if k' = k then some v else alGet rest k

/-- Python `d[k] = v` and `d | {k: v}`: replace the existing key in place,
otherwise append at the end. -/
def alSet {α : Type} : List (String × α) → String → α → List (String × α)
  | [], k, v => [(k, v)]
  | (k', v') :: rest, k, v =>
      if k' = k then (k, v) :: rest else (k', v') :: alSet rest k v

/-- `load_data().get(k, {})` for a category payload; a missing key or a
value of the wrong shape reads as the empty object. -/
def getPayload (st : Store) (k : String) : Payload :=
  match alGet st k with
  | some (.payload d) => d
  | _ => []

/-- `data.get("currency_history", {})` as a mapping currency → samples. -/
def getHistM (st : Store) : List (String × List CurrencyEntry) :=
  match alGet st "currency_history" with
  | some (.hist h) => h
  | _ => []

/-- The default timestamp used by the cached paths:
`"Из файла (нет даты)"` — "from file (no date)" (src/main.py lines 106, 156, 225). -/
def cacheMarker : String := "Из файла (нет даты)"

/-- The hardcoded substitute rates returned by `get_rates(use_live=False)`
when the store holds no cached `currency_rates` (src/main.py line 227). -/
def defaultRates : Payload :=
  [("USD", .rate (470.5 : ℚ) (475.0 : ℚ)), ("EUR", .rate (490.0 : ℚ) (495.0 : ℚ))]

/-- `get_weather(use_live=False)` (src/main.py lines 103-108): read the
cached `weather` payload; if non-empty, return it with `last_upd_weather`
set to its stored value when present, else to the marker; if empty, `None`. -/
def get_weather_cached (st : Store) : Option Payload :=
  let data := getPayload st "weather"
  if data = [] then none
  else some (alSet data "last_upd_weather"
    ((alGet data "last_upd_weather").getD (.s cacheMarker)))

/-- `get_namaz(use_live=False)` (src/main.py lines 153-158); failure is `{}`. -/
def get_namaz_cached (st : Store) : Payload :=
  let data := getPayload st "namaz"
  if data = [] then []
  else alSet data "last_upd_namaz"
    ((alGet data "last_upd_namaz").getD (.s cacheMarker))

/-- `get_rates(use_live=False)` (src/main.py lines 222-227); an empty cache
yields the hardcoded `defaultRates`, not an empty payload. -/
def get_rates_cached (st : Store) : Payload :=
  let data := getPayload st "currency_rates"
  if data = [] then defaultRates
  else alSet data "last_upd_currency"
    ((alGet data "last_upd_currency").getD (.s cacheMarker))

/-- The live path of `get_weather` (src/main.py lines 110-149): the adapter
outcome is the parameter; on success the payload is written under
`"weather"` and returned, on failure `None` is returned with no write. -/
def get_weather_live (liveData : Option Payload) (st : Store) :
    Option Payload × Store :=
  match liveData with
  | some w => (some w, alSet st "weather" (.payload w))
  | none => (none, st)

/-- The live path of `get_namaz` (src/main.py lines 160-218); failure
returns `{}` with no write. -/
def get_namaz_live (liveData : Option Payload) (st : Store) :
    Payload × Store :=
  match liveData with
  | some n => (n, alSet st "namaz" (.payload n))
  | none => ([], st)

/-- The live path of `get_rates` (src/main.py lines 229-245); failure
returns `{}` with no write. -/
def get_rates_live (liveData : Option Payload) (st : Store) :
    Payload × Store :=
  match liveData with
  | some r => (r, alSet st "currency_rates" (.payload r))
  | none => ([], st)

/-- Python truthiness of a dict. -/
def truthyP (p : Payload) : Bool := !p.isEmpty

/-- Python truthiness of `Optional[dict]`. -/
def truthyO : Option Payload → Bool
  | some p => truthyP p
  | none => false

/-- The per-category live-then-cache composition performed by `main`
(src/main.py lines 694, 701): `weather = get_weather(True)` then
`weather = weather or get_weather(use_live=False)`. -/
def refresh_weather (liveData : Option Payload) (st : Store) :
    Option Payload × Store :=
  let r := get_weather_live liveData st
  (if truthyO r.1 then r.1 else get_weather_cached r.2, r.2)

/-- `namaz = get_namaz(True)` then `namaz = namaz or get_namaz(use_live=False)`
(src/main.py lines 695, 702). -/
def refresh_namaz (liveData : Option Payload) (st : Store) :
    Payload × Store :=
  let r := get_namaz_live liveData st
  (if truthyP r.1 then r.1 else get_namaz_cached r.2, r.2)

/-- `rates = get_rates(True)` then `rates = rates or get_rates(use_live=False)`
(src/main.py lines 696, 703). -/
def refresh_rates (liveData : Option Payload) (st : Store) :
    Payload × Store :=
  let r := get_rates_live liveData st
  (if truthyP r.1 then r.1 else get_rates_cached r.2, r.2)

/-- The tuple handed to `send_text_report(weather, rates, history, namaz)`. -/
structure Report where
  weather : Payload
  rates : Payload
  history : List (String × List CurrencyEntry)
  namaz : Payload
deriving Repr, DecidableEq

/-- The FULL_REPORT branch of `main` (src/main.py lines 692-713): three live
fetches, per-category cache fallback for the ones that came back empty, and
an abort (`return`, i.e. no report) when any category is still empty.
Python evaluates the fallbacks only when some category is falsy, but since
`x or f()` equals `x` when `x` is truthy and the cached reads are pure, the
unconditional form below computes the same pair. -/
def main_full_report (liveW liveN liveR : Option Payload) (st0 : Store) :
    Option Report × Store :=
  let ws := get_weather_live liveW st0
  let ns := get_namaz_live liveN ws.2
  let rs := get_rates_live liveR ns.2
  let s3 := rs.2
  let w2 := if truthyO ws.1 then ws.1 else get_weather_cached s3
  let n2 := if truthyP ns.1 then ns.1 else get_namaz_cached s3
  let r2 := if truthyP rs.1 then rs.1 else get_rates_cached s3
  if truthyO w2 && truthyP n2 && truthyP r2 then
    (some ⟨w2.getD [], r2, getHistM s3, n2⟩, s3)
  else (none, s3)

/-- The monitored currency (src/main.py line 41). -/
def MONITOR_CURRENCY : String := "USD"

/-- Python `l[-n:]`. -/
def takeLast {α : Type} (n : Nat) (l : List α) : List α :=
  l.drop (l.length - n)

/-- `if "currency_history" not in data: data["currency_history"] = {}`
(src/main.py lines 258-259). -/
def ensureHistKey (st : Store) : Store :=
  if (alGet st "currency_history").isNone
  then alSet st "currency_history" (.hist []) else st

/-- The day-rollover block (src/main.py lines 261-264): when
`last_history_update` differs from today, the whole `currency_history`
mapping is replaced by `{MONITOR_CURRENCY: []}` and the date is stamped. -/
def applyRollover (monitor current_date : String) (st : Store) : Store :=
  if alGet st "last_history_update" ≠ some (.date current_date) then
    alSet (alSet st "currency_history" (.hist [(monitor, [])]))
      "last_history_update" (.date current_date)
  else st

/-- The dedup test (src/main.py lines 271-277): true when history is
non-empty and its last entry carries the same buy and sale values. -/
def isDup (history : List CurrencyEntry) (b s : ℚ) : Bool :=
  match history.getLast? with
  | some le => le.buy = b && le.sale = s
  | none => false

/-- Direction of a rate move, from the emoji classification at
src/main.py lines 301, 310: strictly positive, strictly negative, or flat. -/
inductive Dir where
  | up
  | down
  | flat
deriving Repr, DecidableEq

/-- `"📈" if change > 0 else "📉" if change < 0 else "➖"`. -/
def classifyChange (d : ℚ) : Dir :=
  if 0 < d then .up else if d < 0 then .down else .flat

/-- The payload of the change message built at src/main.py lines 287-327:
previous and current value, signed delta and its classification, for buy
and for sale. -/
structure Notification where
  prevBuy : ℚ
  curBuy : ℚ
  buyChange : ℚ
  buyDir : Dir
  prevSale : ℚ
  curSale : ℚ
  saleChange : ℚ
  saleDir : Dir
deriving Repr, DecidableEq

/-- The change message sent when history is non-empty (src/main.py
lines 287-327); with empty history no message is built. -/
def mkNotif (history : List CurrencyEntry) (b s : ℚ) : Option Notification :=
  match history.getLast? with
  | some prev =>
      some ⟨prev.buy, b, b - prev.buy, classifyChange (b - prev.buy),
            prev.sale, s, s - prev.sale, classifyChange (s - prev.sale)⟩
  | none => none

/-- The outcome of one `process_currency_history` call: the returned
mapping, the persisted store after the call (unchanged when `save_data`
was not reached), the emitted change message, and whether a save happened. -/
structure HistResult where
  ret : List (String × List CurrencyEntry)
  store : Store
  notif : Option Notification
  saved : Bool
deriving Repr, DecidableEq

/-- `process_currency_history(rates)` (src/main.py lines 247-340), with the
clock (`current_date`, `full_datetime`) and the store passed explicitly.
The early `return {}` covers the empty/absent-currency guard at lines
250-251 and the `except` path reached when the monitored value is not a
rate record. -/
def process_currency_history (monitor current_date full_datetime : String)
    (rates : Payload) (st : Store) : HistResult :=
  if rates = [] then ⟨[], st, none, false⟩
  else
    match alGet rates monitor with
    | none => ⟨[], st, none, false⟩
    | some (.s _) => ⟨[], st, none, false⟩
    | some (.rate current_buy current_sale) =>
      let data := applyRollover monitor current_date (ensureHistKey st)
      let history := (alGet (getHistM data) monitor).getD []
      if isDup history current_buy current_sale then
        ⟨getHistM data, st, none, false⟩
      else
        let new_entry : CurrencyEntry := ⟨full_datetime, current_buy, current_sale⟩
        let bounded := takeLast 24 (history ++ [new_entry])
        let data3 := alSet data "currency_history"
          (.hist (alSet (getHistM data) monitor bounded))
        ⟨getHistM data3, data3, mkNotif history current_buy current_sale, true⟩

/-- A sequence of `process_currency_history` calls on one calendar day,
each sample supplying its timestamp and its fetched rates mapping. -/
def recordSeq (monitor current_date : String)
    (samples : List (String × Payload)) (st : Store) : Store :=
  samples.foldl
    (fun s p => (process_currency_history monitor current_date p.1 p.2 s).store) st

/-! ### Concrete inputs used by witnesses and counterexamples -/

def c1CexStore : Store :=
  [("weather", .payload [("cur_temp", .s "5"),
      ("last_upd_weather", .s "01.01.2024 10:00:00")])]

def c1Store : Store :=
  [("weather", .payload [("last_upd_weather", .s "01.01.2024 10:00:00"),
      ("cur_temp", .s "5")]),
   ("namaz", .payload [("Фаджр", .s "06:30")]),
   ("currency_rates", .payload [("USD", .rate 475 480),
      ("last_upd_currency", .s "01.01.2024 09:00:00")])]

def c9Store : Store :=
  [("currency_history", .hist [("USD", [⟨"01.01.2024 09:00:00", 475, 480⟩])]),
   ("last_history_update", .date "01.01.2024")]

def c3Store : Store :=
  [("currency_history", .hist [("USD", [⟨"02.01.2024 09:00:00", 475, 480⟩])]),
   ("last_history_update", .date "02.01.2024")]

def c3Rates : Payload :=
  [("USD", .rate 475 480), ("last_upd_currency", .s "02.01.2024 10:00:00")]

def c10Store : Store :=
  [("currency_history", .hist [("EUR", [⟨"01.01.2024 09:00:00", 490, 495⟩]),
      ("USD", [⟨"01.01.2024 09:00:00", 475, 480⟩])]),
   ("last_history_update", .date "01.01.2024")]

def c8Store : Store := [("last_history_update", .date "02.01.2024")]

def c2Namaz : Payload := [("Фаджр", .s "06:30")]

def c2Rates : Payload := [("USD", .rate 475 480)]

def c5Rates : Payload := [("USD", .rate 476 480)]

/-! ### Association-list and store lemmas -/

theorem alGet_alSet_self {α : Type} (d : List (String × α)) (k : String) (v : α) :
    alGet (alSet d k v) k = some v := by
  induction d with
  | nil => simp [alGet, alSet]
  | cons hd tl ih =>
    obtain ⟨k0, v0⟩ := hd
    by_cases hk : k0 = k
    · subst hk; simp [alGet, alSet]
    · simp [alGet, alSet, hk, ih]

theorem alGet_alSet_ne {α : Type} (d : List (String × α)) (k k' : String) (v : α)
    (h : k' ≠ k) : alGet (alSet d k v) k' = alGet d k' := by
  induction d with
  | nil => simp [alGet, alSet, Ne.symm h]
  | cons hd tl ih =>
    obtain ⟨k0, v0⟩ := hd
    by_cases hk : k0 = k
    · subst hk; simp [alGet, alSet, Ne.symm h]
    · simp [alGet, alSet, hk, ih]

theorem alGet_ne_nil {α : Type} {d : List (String × α)} {k : String} {v : α}
    (h : alGet d k = some v) : d ≠ [] := by
  intro hd; subst hd; simp [alGet] at h

theorem getPayload_congr (s s' : Store) (k : String)
    (h : alGet s k = alGet s' k) : getPayload s k = getPayload s' k := by
  simp only [getPayload, h]

theorem getHistM_alSet_hist (st : Store) (m : List (String × List CurrencyEntry)) :
    getHistM (alSet st "currency_history" (.hist m)) = m := by
  simp only [getHistM, alGet_alSet_self]

theorem getHistM_alSet_ne (st : Store) (k : String) (v : StoreVal)
    (h : k ≠ "currency_history") : getHistM (alSet st k v) = getHistM st := by
  simp only [getHistM, alGet_alSet_ne _ _ _ _ (Ne.symm h)]

theorem alGet_ensureHistKey_ne (st : Store) (k : String)
    (h : k ≠ "currency_history") : alGet (ensureHistKey st) k = alGet st k := by
  unfold ensureHistKey
  split
  · exact alGet_alSet_ne _ _ _ _ h
  · rfl

theorem getHistM_ensureHistKey (st : Store) :
    getHistM (ensureHistKey st) = getHistM st := by
  unfold ensureHistKey
  split
  · rename_i h
    rw [getHistM_alSet_hist]
    simp only [getHistM, Option.isNone_iff_eq_none.mp h]
  · rfl

theorem applyRollover_same (monitor cd : String) (st : Store)
    (h : alGet st "last_history_update" = some (.date cd)) :
    applyRollover monitor cd st = st := by
  unfold applyRollover
  simp [h]

theorem applyRollover_diff (monitor cd : String) (st : Store)
    (h : alGet st "last_history_update" ≠ some (.date cd)) :
    applyRollover monitor cd st =
      alSet (alSet st "currency_history" (.hist [(monitor, [])]))
        "last_history_update" (.date cd) := by
  unfold applyRollover
  simp [h]

theorem takeLast_length_le {α : Type} (n : Nat) (l : List α) :
    (takeLast n l).length ≤ n := by
  simp only [takeLast, List.length_drop]
  omega

theorem takeLast_of_length_le {α : Type} (n : Nat) (l : List α)
    (h : l.length ≤ n) : takeLast n l = l := by
  simp only [takeLast]
  rw [Nat.sub_eq_zero_of_le h, List.drop_zero]

/-! ### Branch characterizations of `process_currency_history` -/

theorem process_empty_rates (monitor cd now : String) (st : Store) :
    process_currency_history monitor cd now [] st = ⟨[], st, none, false⟩ := by
  simp [process_currency_history]

theorem process_no_monitor (monitor cd now : String) (rates : Payload) (st : Store)
    (h : alGet rates monitor = none) :
    process_currency_history monitor cd now rates st = ⟨[], st, none, false⟩ := by
  unfold process_currency_history
  split
  · rfl
  · simp only [h]

theorem process_non_rate (monitor cd now x : String) (rates : Payload) (st : Store)
    (h : alGet rates monitor = some (.s x)) :
    process_currency_history monitor cd now rates st = ⟨[], st, none, false⟩ := by
  unfold process_currency_history
  split
  · rfl
  · simp only [h]

theorem process_same_day (monitor cd now : String) (rates : Payload) (st : Store) (b s : ℚ)
    (hmon : alGet rates monitor = some (.rate b s))
    (hday : alGet st "last_history_update" = some (.date cd)) :
    process_currency_history monitor cd now rates st =
      (if isDup ((alGet (getHistM st) monitor).getD []) b s then
        ⟨getHistM st, st, none, false⟩
      else
        ⟨alSet (getHistM st) monitor
           (takeLast 24 (((alGet (getHistM st) monitor).getD []) ++ [⟨now, b, s⟩])),
         alSet (ensureHistKey st) "currency_history"
           (.hist (alSet (getHistM st) monitor
             (takeLast 24 (((alGet (getHistM st) monitor).getD []) ++ [⟨now, b, s⟩])))),
         mkNotif ((alGet (getHistM st) monitor).getD []) b s, true⟩) := by
  have hne : rates ≠ [] := alGet_ne_nil hmon
  have hday' : alGet (ensureHistKey st) "last_history_update" = some (.date cd) := by
    rw [alGet_ensureHistKey_ne st _ (by decide)]; exact hday
  simp only [process_currency_history, if_neg hne, hmon,
    applyRollover_same _ _ _ hday', getHistM_ensureHistKey, getHistM_alSet_hist]

theorem process_rollover (monitor cd now : String) (rates : Payload) (st : Store) (b s : ℚ)
    (hmon : alGet rates monitor = some (.rate b s))
    (hday : alGet st "last_history_update" ≠ some (.date cd)) :
    process_currency_history monitor cd now rates st =
      ⟨[(monitor, [⟨now, b, s⟩])],
       alSet (alSet (alSet (ensureHistKey st) "currency_history"
           (.hist [(monitor, [])])) "last_history_update" (.date cd))
         "currency_history" (.hist [(monitor, [⟨now, b, s⟩])]),
       none, true⟩ := by
  have hne : rates ≠ [] := alGet_ne_nil hmon
  have hday' : alGet (ensureHistKey st) "last_history_update" ≠ some (.date cd) := by
    rw [alGet_ensureHistKey_ne st _ (by decide)]; exact hday
  have hhist : getHistM (alSet (alSet (ensureHistKey st) "currency_history"
      (.hist [(monitor, [])])) "last_history_update" (.date cd)) = [(monitor, [])] := by
    rw [getHistM_alSet_ne _ _ _ (by decide), getHistM_alSet_hist]
  simp only [process_currency_history, if_neg hne, hmon,
    applyRollover_diff _ _ _ hday', hhist, getHistM_alSet_hist]
  simp [alGet, alSet, isDup, mkNotif, takeLast]

/-! ### The 24-entry bound is an invariant of every call -/

theorem process_hist_le (monitor cd now : String) (rates : Payload) (st : Store)
    (h : ((alGet (getHistM st) monitor).getD []).length ≤ 24) :
    ((alGet (getHistM (process_currency_history monitor cd now rates st).store)
      monitor).getD []).length ≤ 24 := by
  by_cases hr : rates = []
  · subst hr; rw [process_empty_rates]; exact h
  · rcases hv : alGet rates monitor with _ | v
    · rw [process_no_monitor _ _ _ _ _ hv]; exact h
    · cases v with
      | s x => rw [process_non_rate _ _ _ _ _ _ hv]; exact h
      | rate b s =>
        by_cases hd : alGet st "last_history_update" = some (.date cd)
        · rw [process_same_day _ _ _ _ _ _ _ hv hd]
          split
          · exact h
          · simp only [getHistM_alSet_hist, alGet_alSet_self, Option.getD_some]
            exact takeLast_length_le _ _
        · rw [process_rollover _ _ _ _ _ _ _ hv hd]
          simp [getHistM_alSet_hist, alGet]

theorem recordSeq_hist_le (monitor cd : String) (samples : List (String × Payload))
    (st : Store) (h : ((alGet (getHistM st) monitor).getD []).length ≤ 24) :
    ((alGet (getHistM (recordSeq monitor cd samples st)) monitor).getD []).length ≤ 24 := by
  induction samples generalizing st with
  | nil => exact h
  | cons sp tl ih =>
    simp only [recordSeq, List.foldl_cons]
    exact ih _ (process_hist_le _ _ _ _ _ h)

theorem get_weather_cached_congr (s s' : Store)
    (h : alGet s "weather" = alGet s' "weather") :
    get_weather_cached s = get_weather_cached s' := by
  simp only [get_weather_cached]
  rw [getPayload_congr s s' "weather" h]

theorem get_namaz_cached_congr (s s' : Store)
    (h : alGet s "namaz" = alGet s' "namaz") :
    get_namaz_cached s = get_namaz_cached s' := by
  simp only [get_namaz_cached]
  rw [getPayload_congr s s' "namaz" h]

theorem get_rates_cached_congr (s s' : Store)
    (h : alGet s "currency_rates" = alGet s' "currency_rates") :
    get_rates_cached s = get_rates_cached s' := by
  simp only [get_rates_cached]
  rw [getPayload_congr s s' "currency_rates" h]

theorem weather_live_frame (l : Option Payload) (st : Store) (k : String)
    (h : k ≠ "weather") : alGet (get_weather_live l st).2 k = alGet st k := by
  cases l <;> simp [get_weather_live, alGet_alSet_ne _ _ _ _ h]

theorem namaz_live_frame (l : Option Payload) (st : Store) (k : String)
    (h : k ≠ "namaz") : alGet (get_namaz_live l st).2 k = alGet st k := by
  cases l <;> simp [get_namaz_live, alGet_alSet_ne _ _ _ _ h]

theorem rates_live_frame (l : Option Payload) (st : Store) (k : String)
    (h : k ≠ "currency_rates") : alGet (get_rates_live l st).2 k = alGet st k := by
  cases l <;> simp [get_rates_live, alGet_alSet_ne _ _ _ _ h]

theorem namaz_live_key (l : Option Payload) (s s' : Store)
    (h : alGet s "namaz" = alGet s' "namaz") :
    alGet (get_namaz_live l s).2 "namaz" = alGet (get_namaz_live l s').2 "namaz" := by
  cases l <;> simp [get_namaz_live, alGet_alSet_self, h]

theorem rates_live_key (l : Option Payload) (s s' : Store)
    (h : alGet s "currency_rates" = alGet s' "currency_rates") :
    alGet (get_rates_live l s).2 "currency_rates"
      = alGet (get_rates_live l s').2 "currency_rates" := by
  cases l <;> simp [get_rates_live, alGet_alSet_self, h]

theorem main_full_report_values (liveW liveN liveR : Option Payload) (st0 : Store) :
    (main_full_report liveW liveN liveR st0).1 =
      (let w2 := (refresh_weather liveW st0).1
       let n2 := (refresh_namaz liveN st0).1
       let r2 := (refresh_rates liveR st0).1
       let s3 := (get_rates_live liveR (get_namaz_live liveN
         (get_weather_live liveW st0).2).2).2
       if truthyO w2 && truthyP n2 && truthyP r2 then
         some ⟨w2.getD [], r2, getHistM s3, n2⟩
       else none) := by
  have hw : alGet (get_rates_live liveR (get_namaz_live liveN
      (get_weather_live liveW st0).2).2).2 "weather"
      = alGet (get_weather_live liveW st0).2 "weather" := by
    rw [rates_live_frame _ _ _ (by decide), namaz_live_frame _ _ _ (by decide)]
  have hn : alGet (get_rates_live liveR (get_namaz_live liveN
      (get_weather_live liveW st0).2).2).2 "namaz"
      = alGet (get_namaz_live liveN st0).2 "namaz" := by
    rw [rates_live_frame _ _ _ (by decide)]
    exact namaz_live_key _ _ _ (weather_live_frame _ _ _ (by decide))
  have hr : alGet (get_rates_live liveR (get_namaz_live liveN
      (get_weather_live liveW st0).2).2).2 "currency_rates"
      = alGet (get_rates_live liveR st0).2 "currency_rates" := by
    refine rates_live_key _ _ _ ?_
    rw [namaz_live_frame _ _ _ (by decide), weather_live_frame _ _ _ (by decide)]
  have h1 : (get_namaz_live liveN (get_weather_live liveW st0).2).1
      = (get_namaz_live liveN st0).1 := by cases liveN <;> rfl
  have h2 : (get_rates_live liveR (get_namaz_live liveN
      (get_weather_live liveW st0).2).2).1 = (get_rates_live liveR st0).1 := by
    cases liveR <;> rfl
  simp only [main_full_report, refresh_weather, refresh_namaz, refresh_rates,
    get_weather_cached_congr _ _ hw, get_namaz_cached_congr _ _ hn,
    get_rates_cached_congr _ _ hr, h1, h2]
  rw [apply_ite Prod.fst]

/-- C1 counterexample: on fallback with a cached `weather` payload whose
timestamp field is present, the returned payload keeps the stored timestamp
`"01.01.2024 10:00:00"`; it is not re-stamped to the from-cache marker. -/
theorem fallback_restamp_marker_cex :
    alGet ((refresh_weather none c1CexStore).1.getD []) "last_upd_weather"
        = some (.s "01.01.2024 10:00:00")
    ∧ (Val.s "01.01.2024 10:00:00") ≠ (.s cacheMarker) := by
  constructor
  · rfl
  · decide

/-- C1 (amended): for each category independently, when the live fetch fails
and a cached value for that category exists, the refresh returns the cached
payload with its timestamp field set to the stored timestamp when that
field is present (the explicit "from cache, no fresh date" marker is used
only when the cached payload has no timestamp field), and the store is not
written (read-only fallback). -/
theorem fallback_preserves_stored_timestamp (st : Store) :
    (getPayload st "weather" ≠ [] → refresh_weather none st =
      (some (alSet (getPayload st "weather") "last_upd_weather"
        ((alGet (getPayload st "weather") "last_upd_weather").getD (.s cacheMarker))), st)) ∧
    (getPayload st "namaz" ≠ [] → refresh_namaz none st =
      (alSet (getPayload st "namaz") "last_upd_namaz"
        ((alGet (getPayload st "namaz") "last_upd_namaz").getD (.s cacheMarker)), st)) ∧
    (getPayload st "currency_rates" ≠ [] → refresh_rates none st =
      (alSet (getPayload st "currency_rates") "last_upd_currency"
        ((alGet (getPayload st "currency_rates") "last_upd_currency").getD (.s cacheMarker)), st)) := by
  refine ⟨fun hw => ?_, fun hn => ?_, fun hr => ?_⟩
  · simp [refresh_weather, get_weather_live, truthyO, truthyP,
      get_weather_cached, hw]
  · simp [refresh_namaz, get_namaz_live, truthyP, get_namaz_cached, hn]
  · simp [refresh_rates, get_rates_live, truthyP, get_rates_cached, hr]

theorem fallback_preserves_stored_timestamp_witness :
    getPayload c1Store "weather" ≠ [] ∧
    getPayload c1Store "namaz" ≠ [] ∧
    getPayload c1Store "currency_rates" ≠ [] ∧
    refresh_weather none c1Store =
      (some (alSet (getPayload c1Store "weather") "last_upd_weather"
        ((alGet (getPayload c1Store "weather") "last_upd_weather").getD (.s cacheMarker))), c1Store) ∧
    refresh_namaz none c1Store =
      (alSet (getPayload c1Store "namaz") "last_upd_namaz"
        ((alGet (getPayload c1Store "namaz") "last_upd_namaz").getD (.s cacheMarker)), c1Store) ∧
    refresh_rates none c1Store =
      (alSet (getPayload c1Store "currency_rates") "last_upd_currency"
        ((alGet (getPayload c1Store "currency_rates") "last_upd_currency").getD (.s cacheMarker)), c1Store) :=
  ⟨by decide, by decide, by decide,
    (fallback_preserves_stored_timestamp c1Store).1 (by decide),
    (fallback_preserves_stored_timestamp c1Store).2.1 (by decide),
    (fallback_preserves_stored_timestamp c1Store).2.2 (by decide)⟩

/-- C2: in FULL_REPORT mode, if any of the three categories is still empty
after both the live attempt and the cache fallback, no report is produced
at all (the run returns `none`, a clean return with no partial report). -/
theorem full_report_aborts_when_category_empty
    (liveW liveN liveR : Option Payload) (st0 : Store)
    (h : truthyO (refresh_weather liveW st0).1 = false
       ∨ truthyP (refresh_namaz liveN st0).1 = false
       ∨ truthyP (refresh_rates liveR st0).1 = false) :
    (main_full_report liveW liveN liveR st0).1 = none := by
  rw [main_full_report_values]
  rcases h with h | h | h <;> simp [h]

theorem full_report_aborts_when_category_empty_witness :
    (truthyO (refresh_weather none ([] : Store)).1 = false
       ∨ truthyP (refresh_namaz (some c2Namaz) ([] : Store)).1 = false
       ∨ truthyP (refresh_rates (some c2Rates) ([] : Store)).1 = false)
    ∧ (main_full_report none (some c2Namaz) (some c2Rates) ([] : Store)).1 = none :=
  ⟨Or.inl (by decide),
   full_report_aborts_when_category_empty none (some c2Namaz) (some c2Rates) []
     (Or.inl (by decide))⟩

/-- C6: a successful live update of one category replaces only that
category's key of the store: updating `currency_rates` leaves `weather`,
`namaz`, `currency_history` and `last_history_update` unchanged, and the
analogous frame holds for a `weather` update. -/
theorem rates_update_frame (st : Store) (res w : Payload) :
    alGet (get_rates_live (some res) st).2 "weather" = alGet st "weather" ∧
    alGet (get_rates_live (some res) st).2 "namaz" = alGet st "namaz" ∧
    alGet (get_rates_live (some res) st).2 "currency_history"
        = alGet st "currency_history" ∧
    alGet (get_rates_live (some res) st).2 "last_history_update"
        = alGet st "last_history_update" ∧
    alGet (get_rates_live (some res) st).2 "currency_rates" = some (.payload res) ∧
    alGet (get_weather_live (some w) st).2 "namaz" = alGet st "namaz" ∧
    alGet (get_weather_live (some w) st).2 "currency_rates"
        = alGet st "currency_rates" ∧
    alGet (get_weather_live (some w) st).2 "weather" = some (.payload w) :=
  ⟨rates_live_frame _ _ _ (by decide), rates_live_frame _ _ _ (by decide),
   rates_live_frame _ _ _ (by decide), rates_live_frame _ _ _ (by decide),
   alGet_alSet_self _ _ _,
   weather_live_frame _ _ _ (by decide), weather_live_frame _ _ _ (by decide),
   alGet_alSet_self _ _ _⟩

/-- C7 counterexample: with no cached `currency_rates`, the fallback returns
the hardcoded substitute rates (USD 470.5/475.0, EUR 490.0/495.0), which is
not an empty payload. -/
theorem no_cache_rates_substitute_cex :
    (refresh_rates none ([] : Store)).1 = defaultRates ∧ defaultRates ≠ [] := by
  constructor
  · rfl
  · simp [defaultRates]

/-- C7 (amended): for each category independently, when the live fetch is
unavailable and the store holds no cached value for that category, the
weather refresh returns `None` and the namaz refresh returns the empty
payload (signaling total failure), with no store write; the currency
refresh, however, returns the hardcoded substitute `defaultRates` instead
of an empty payload. -/
theorem no_cache_fallback_payloads (st : Store) :
    (getPayload st "weather" = [] → refresh_weather none st = (none, st)) ∧
    (getPayload st "namaz" = [] → refresh_namaz none st = ([], st)) ∧
    (getPayload st "currency_rates" = [] →
      refresh_rates none st = (defaultRates, st)) ∧
    defaultRates ≠ [] := by
  refine ⟨fun hw => ?_, fun hn => ?_, fun hr => ?_, by simp [defaultRates]⟩
  · simp [refresh_weather, get_weather_live, truthyO, truthyP,
      get_weather_cached, hw]
  · simp [refresh_namaz, get_namaz_live, truthyP, get_namaz_cached, hn]
  · simp [refresh_rates, get_rates_live, truthyP, get_rates_cached, hr]

theorem no_cache_fallback_payloads_witness :
    getPayload ([] : Store) "weather" = [] ∧
    getPayload ([] : Store) "namaz" = [] ∧
    getPayload ([] : Store) "currency_rates" = [] ∧
    refresh_weather none ([] : Store) = (none, []) ∧
    refresh_namaz none ([] : Store) = ([], []) ∧
    refresh_rates none ([] : Store) = (defaultRates, []) ∧ defaultRates ≠ [] :=
  ⟨by decide, by decide, by decide,
   (no_cache_fallback_payloads []).1 (by decide),
   (no_cache_fallback_payloads []).2.1 (by decide),
   (no_cache_fallback_payloads []).2.2.1 (by decide),
   (no_cache_fallback_payloads []).2.2.2⟩

/-- C9 counterexample: with a non-empty stored history and an empty rates
mapping, `process_currency_history` returns the empty mapping, not the
existing history unchanged. -/
theorem missing_currency_returns_empty_cex :
    (process_currency_history "USD" "01.01.2024" "01.01.2024 10:00:00" [] c9Store).ret = []
    ∧ getHistM c9Store ≠ [] := by
  constructor
  · rfl
  · simp [c9Store, getHistM, alGet]

/-- C9 (amended): if the rates mapping is empty or the monitored currency is
absent from it, `process_currency_history` performs no append, emits no
notification and writes nothing to the store, but its return value is the
empty mapping, not the existing history. -/
theorem missing_currency_noop (monitor cd now : String) (rates : Payload)
    (st : Store) (h : rates = [] ∨ alGet rates monitor = none) :
    process_currency_history monitor cd now rates st = ⟨[], st, none, false⟩ := by
  rcases h with h | h
  · subst h; exact process_empty_rates _ _ _ _
  · exact process_no_monitor _ _ _ _ _ h

theorem missing_currency_noop_witness :
    (([("EUR", Val.rate 490 495)] : Payload) = [] ∨
      alGet ([("EUR", Val.rate 490 495)] : Payload) "USD" = none) ∧
    process_currency_history "USD" "01.01.2024" "01.01.2024 10:00:00"
      [("EUR", Val.rate 490 495)] c9Store = ⟨[], c9Store, none, false⟩ :=
  ⟨Or.inr (by decide),
   missing_currency_noop "USD" "01.01.2024" "01.01.2024 10:00:00"
     [("EUR", Val.rate 490 495)] c9Store (Or.inr (by decide))⟩

/-- C3: if the monitored currency's new (buy, sale) values equal the last
stored history entry's values, the record operation is a no-op: no entry is
appended, no change notification is emitted, the store is not written, and
the existing history mapping is returned. -/
theorem dedup_skip_noop (monitor cd now : String) (rates : Payload) (st : Store)
    (b s : ℚ) (prev : CurrencyEntry)
    (hmon : alGet rates monitor = some (.rate b s))
    (hday : alGet st "last_history_update" = some (.date cd))
    (hlast : ((alGet (getHistM st) monitor).getD []).getLast? = some prev)
    (hb : prev.buy = b) (hs : prev.sale = s) :
    process_currency_history monitor cd now rates st = ⟨getHistM st, st, none, false⟩ := by
  have hdup : isDup ((alGet (getHistM st) monitor).getD []) b s = true := by
    simp [isDup, hlast, hb, hs]
  rw [process_same_day _ _ _ _ _ _ _ hmon hday, if_pos hdup]

theorem dedup_skip_noop_witness :
    alGet c3Rates "USD" = some (.rate 475 480) ∧
    alGet c3Store "last_history_update" = some (.date "02.01.2024") ∧
    ((alGet (getHistM c3Store) "USD").getD []).getLast?
      = some ⟨"02.01.2024 09:00:00", 475, 480⟩ ∧
    ((alGet (getHistM c3Store) "USD").getD []).length = 1 ∧
    process_currency_history "USD" "02.01.2024" "02.01.2024 10:00:00" c3Rates c3Store
      = ⟨getHistM c3Store, c3Store, none, false⟩ :=
  ⟨by decide, by decide, by decide, by decide,
   dedup_skip_noop "USD" "02.01.2024" "02.01.2024 10:00:00" c3Rates c3Store
     475 480 ⟨"02.01.2024 09:00:00", 475, 480⟩
     (by decide) (by decide) (by decide) (by decide) (by decide)⟩

/-- C4: when the record operation runs on a calendar day different from the
store's `last_history_update`, it clears the monitored currency's history
and stamps `last_history_update` with today's date before appending, so the
resulting history for the monitored currency has length 1 and contains only
today's new sample. -/
theorem day_rollover_resets_history (monitor cd now : String) (rates : Payload)
    (st : Store) (b s : ℚ)
    (hmon : alGet rates monitor = some (.rate b s))
    (hday : alGet st "last_history_update" ≠ some (.date cd)) :
    alGet (getHistM (process_currency_history monitor cd now rates st).store) monitor
        = some [⟨now, b, s⟩] ∧
    alGet (process_currency_history monitor cd now rates st).store "last_history_update"
        = some (.date cd) ∧
    (process_currency_history monitor cd now rates st).ret
        = [(monitor, [⟨now, b, s⟩])] := by
  rw [process_rollover _ _ _ _ _ _ _ hmon hday]
  refine ⟨?_, ?_, rfl⟩
  · rw [getHistM_alSet_hist]; simp [alGet]
  · rw [alGet_alSet_ne _ _ _ _ (by decide), alGet_alSet_self]

theorem day_rollover_resets_history_witness :
    alGet c3Rates "USD" = some (.rate 475 480) ∧
    alGet ([] : Store) "last_history_update" ≠ some (.date "02.01.2024") ∧
    (alGet (getHistM (process_currency_history "USD" "02.01.2024"
        "02.01.2024 10:00:00" c3Rates ([] : Store)).store) "USD"
        = some [⟨"02.01.2024 10:00:00", 475, 480⟩] ∧
     alGet (process_currency_history "USD" "02.01.2024" "02.01.2024 10:00:00"
        c3Rates ([] : Store)).store "last_history_update"
        = some (.date "02.01.2024") ∧
     (process_currency_history "USD" "02.01.2024" "02.01.2024 10:00:00"
        c3Rates ([] : Store)).ret = [("USD", [⟨"02.01.2024 10:00:00", 475, 480⟩])]) :=
  ⟨by decide, by decide,
   day_rollover_resets_history "USD" "02.01.2024" "02.01.2024 10:00:00"
     c3Rates [] 475 480 (by decide) (by decide)⟩

/-- C10: whenever the record operation performs a day rollover, it replaces
the entire `currency_history` mapping by one containing exactly the
monitored currency's key, so the history of every other currency code
present before the call is erased. -/
theorem rollover_erases_other_currencies (monitor cd now : String)
    (rates : Payload) (st : Store) (b s : ℚ)
    (hmon : alGet rates monitor = some (.rate b s))
    (hday : alGet st "last_history_update" ≠ some (.date cd)) :
    getHistM (process_currency_history monitor cd now rates st).store
        = [(monitor, [⟨now, b, s⟩])] ∧
    ∀ c, c ≠ monitor →
      alGet (getHistM (process_currency_history monitor cd now rates st).store) c
        = none := by
  rw [process_rollover _ _ _ _ _ _ _ hmon hday, getHistM_alSet_hist]
  exact ⟨rfl, fun c hc => by simp [alGet, Ne.symm hc]⟩

theorem rollover_erases_other_currencies_witness :
    alGet c2Rates "USD" = some (.rate 475 480) ∧
    alGet c10Store "last_history_update" ≠ some (.date "02.01.2024") ∧
    alGet (getHistM c10Store) "EUR" ≠ none ∧
    (getHistM (process_currency_history "USD" "02.01.2024" "02.01.2024 11:00:00"
        c2Rates c10Store).store = [("USD", [⟨"02.01.2024 11:00:00", 475, 480⟩])] ∧
     ∀ c, c ≠ "USD" →
       alGet (getHistM (process_currency_history "USD" "02.01.2024"
         "02.01.2024 11:00:00" c2Rates c10Store).store) c = none) :=
  ⟨by decide, by decide, by decide,
   rollover_erases_other_currencies "USD" "02.01.2024" "02.01.2024 11:00:00"
     c2Rates c10Store 475 480 (by decide) (by decide)⟩

/-- C5: a record call with the monitored currency present and values
distinct from the last entry leaves the monitored history equal to the last
24 entries of the old history with the new sample appended (oldest entries
evicted from the front, chronological append order preserved), hence of
length at most 24; and after any further sequence of record calls the
length stays at most 24. -/
theorem history_bounded_and_ordered (monitor cd now : String) (rates : Payload)
    (st : Store) (b s : ℚ)
    (hmon : alGet rates monitor = some (.rate b s))
    (hday : alGet st "last_history_update" = some (.date cd))
    (hnew : isDup ((alGet (getHistM st) monitor).getD []) b s = false) :
    ((alGet (getHistM (process_currency_history monitor cd now rates st).store)
        monitor).getD [])
      = takeLast 24 (((alGet (getHistM st) monitor).getD []) ++ [⟨now, b, s⟩]) ∧
    ((alGet (getHistM (process_currency_history monitor cd now rates st).store)
        monitor).getD []).length ≤ 24 ∧
    ((alGet (getHistM (process_currency_history monitor cd now rates st).store)
        monitor).getD [])
      <:+ (((alGet (getHistM st) monitor).getD []) ++ [⟨now, b, s⟩]) ∧
    ∀ samples : List (String × Payload),
      ((alGet (getHistM (recordSeq monitor cd samples
        (process_currency_history monitor cd now rates st).store)) monitor).getD []).length
        ≤ 24 := by
  have hstep : ((alGet (getHistM (process_currency_history monitor cd now rates st).store)
      monitor).getD [])
      = takeLast 24 (((alGet (getHistM st) monitor).getD []) ++ [⟨now, b, s⟩]) := by
    rw [process_same_day _ _ _ _ _ _ _ hmon hday, if_neg (by simp [hnew])]
    simp [getHistM_alSet_hist, alGet_alSet_self]
  refine ⟨hstep, ?_, ?_, ?_⟩
  · rw [hstep]; exact takeLast_length_le _ _
  · rw [hstep]; exact List.drop_suffix _ _
  · intro samples
    exact recordSeq_hist_le _ _ _ _ (by rw [hstep]; exact takeLast_length_le _ _)

theorem history_bounded_and_ordered_witness :
    alGet c5Rates "USD" = some (.rate 476 480) ∧
    alGet c3Store "last_history_update" = some (.date "02.01.2024") ∧
    isDup ((alGet (getHistM c3Store) "USD").getD []) 476 480 = false ∧
    (((alGet (getHistM (process_currency_history "USD" "02.01.2024"
        "02.01.2024 12:00:00" c5Rates c3Store).store) "USD").getD [])
      = takeLast 24 (((alGet (getHistM c3Store) "USD").getD [])
          ++ [⟨"02.01.2024 12:00:00", 476, 480⟩]) ∧
     ((alGet (getHistM (process_currency_history "USD" "02.01.2024"
        "02.01.2024 12:00:00" c5Rates c3Store).store) "USD").getD []).length ≤ 24 ∧
     ((alGet (getHistM (process_currency_history "USD" "02.01.2024"
        "02.01.2024 12:00:00" c5Rates c3Store).store) "USD").getD [])
      <:+ (((alGet (getHistM c3Store) "USD").getD [])
          ++ [⟨"02.01.2024 12:00:00", 476, 480⟩]) ∧
     ∀ samples : List (String × Payload),
       ((alGet (getHistM (recordSeq "USD" "02.01.2024" samples
         (process_currency_history "USD" "02.01.2024" "02.01.2024 12:00:00"
           c5Rates c3Store).store)) "USD").getD []).length ≤ 24) :=
  ⟨by decide, by decide, by decide,
   history_bounded_and_ordered "USD" "02.01.2024" "02.01.2024 12:00:00"
     c5Rates c3Store 476 480 (by decide) (by decide) (by decide)⟩

/-- C8: under no day rollover, the record operation emits a change
notification exactly when the existing history is non-empty and the new
values differ from its last entry; the notification carries the previous
and new value and the signed delta, classified as increase, decrease or
no-change, for buy and for sale; and when history is empty the first sample
is appended with no notification. -/
theorem change_notification_spec (monitor cd now : String) (rates : Payload)
    (st : Store) (b s : ℚ)
    (hmon : alGet rates monitor = some (.rate b s))
    (hday : alGet st "last_history_update" = some (.date cd)) :
    ((process_currency_history monitor cd now rates st).notif.isSome = true ↔
      ∃ prev, ((alGet (getHistM st) monitor).getD []).getLast? = some prev ∧
        ¬(prev.buy = b ∧ prev.sale = s)) ∧
    (((alGet (getHistM st) monitor).getD []) = [] →
      (process_currency_history monitor cd now rates st).notif = none ∧
      alGet (getHistM (process_currency_history monitor cd now rates st).store) monitor
        = some [⟨now, b, s⟩]) ∧
    (∀ prev, ((alGet (getHistM st) monitor).getD []).getLast? = some prev →
      ¬(prev.buy = b ∧ prev.sale = s) →
      (process_currency_history monitor cd now rates st).notif =
        some ⟨prev.buy, b, b - prev.buy, classifyChange (b - prev.buy),
              prev.sale, s, s - prev.sale, classifyChange (s - prev.sale)⟩) := by
  rw [process_same_day _ _ _ _ _ _ _ hmon hday]
  by_cases hdup : isDup ((alGet (getHistM st) monitor).getD []) b s = true
  · rw [if_pos hdup]
    obtain ⟨le, hl, hble⟩ : ∃ le,
        ((alGet (getHistM st) monitor).getD []).getLast? = some le ∧
        (le.buy = b ∧ le.sale = s) := by
      unfold isDup at hdup
      split at hdup
      · rename_i le hl
        exact ⟨le, hl, by simpa using hdup⟩
      · simp at hdup
    refine ⟨?_, ?_, ?_⟩
    · simp only [Option.isSome_none]
      constructor
      · intro h; simp at h
      · rintro ⟨prev, hp, hne⟩
        rw [hl] at hp
        cases hp
        exact absurd hble hne
    · intro h0
      rw [h0] at hl
      simp at hl
    · intro prev hp hne
      rw [hl] at hp
      cases hp
      exact absurd hble hne
  · rw [if_neg hdup]
    have hdup' : isDup ((alGet (getHistM st) monitor).getD []) b s = false := by
      simpa using hdup
    refine ⟨?_, ?_, ?_⟩
    · cases hl : ((alGet (getHistM st) monitor).getD []).getLast? with
      | none => simp [mkNotif, hl]
      | some le =>
        have hne : ¬(le.buy = b ∧ le.sale = s) := by
          unfold isDup at hdup'
          rw [hl] at hdup'
          simpa using hdup'
        simp only [mkNotif, hl, Option.isSome_some, true_iff]
        exact ⟨le, rfl, hne⟩
    · intro h0
      refine ⟨by simp [mkNotif, h0], ?_⟩
      simp [getHistM_alSet_hist, alGet_alSet_self, h0, takeLast]
    · intro prev hp hne
      simp [mkNotif, hp]

theorem change_notification_spec_witness :
    alGet c2Rates "USD" = some (.rate 475 480) ∧
    alGet c8Store "last_history_update" = some (.date "02.01.2024") ∧
    (((process_currency_history "USD" "02.01.2024" "02.01.2024 09:00:00"
        c2Rates c8Store).notif.isSome = true ↔
       ∃ prev, ((alGet (getHistM c8Store) "USD").getD []).getLast? = some prev ∧
         ¬(prev.buy = 475 ∧ prev.sale = 480)) ∧
     (((alGet (getHistM c8Store) "USD").getD []) = [] →
       (process_currency_history "USD" "02.01.2024" "02.01.2024 09:00:00"
         c2Rates c8Store).notif = none ∧
       alGet (getHistM (process_currency_history "USD" "02.01.2024"
         "02.01.2024 09:00:00" c2Rates c8Store).store) "USD"
         = some [⟨"02.01.2024 09:00:00", 475, 480⟩]) ∧
     (∀ prev, ((alGet (getHistM c8Store) "USD").getD []).getLast? = some prev →
       ¬(prev.buy = 475 ∧ prev.sale = 480) →
       (process_currency_history "USD" "02.01.2024" "02.01.2024 09:00:00"
         c2Rates c8Store).notif =
         some ⟨prev.buy, 475, 475 - prev.buy, classifyChange (475 - prev.buy),
               prev.sale, 480, 480 - prev.sale, classifyChange (480 - prev.sale)⟩)) :=
  ⟨by decide, by decide,
   change_notification_spec "USD" "02.01.2024" "02.01.2024 09:00:00"
     c2Rates c8Store 475 480 (by decide) (by decide)⟩

end DailyReport
